import Mathlib

/-!
Shallow embedding of `levelplot` (`src/levelplot/levelplot.py`) and proofs
about its core algorithms: the overlap/vertical-offset layout engine
(`_calculate_vertical_offset` plus the loop in `plot`), the color assigner
(`_get_color`), schema validation, exclusion filtering, and the axis-range
computations in `plot`.

Numbers (`start`, `stop`, `level`, offsets) are modelled as rationals.
-/

namespace LevelPlot

/-- One row of the input DataFrame.  `chart` partitions rows into panels,
`legend` names the signal, `start`/`stop` are the horizontal extent,
`level` the vertical position, `exclude` the optional drop flag. -/
structure Row where
  chart : String
  legend : String
  start : ℚ
  stop : ℚ
  level : ℚ
  exclude : Bool := false
deriving Repr, DecidableEq, Inhabited

/-- Python `abs` on rationals, written so the kernel can evaluate it. -/
def ratAbs (q : ℚ) : ℚ := if q < 0 then -q else q

/-- Python binary `max` on rationals, kernel-evaluable. -/
def ratMax (a b : ℚ) : ℚ := if a ≤ b then b else a

/-- Python binary `min` on rationals, kernel-evaluable. -/
def ratMin (a b : ℚ) : ℚ := if a ≤ b then a else b

/-- Python `max` over a list (`None`-free: empty list gives `none`). -/
def maxQ? : List ℚ → Option ℚ
  | [] => none
  | x :: xs => some (xs.foldl ratMax x)

/-- Horizontal-overlap test from `_calculate_vertical_offset`:
`not (current_line['stop'] <= row['start'] or current_line['start'] >= row['stop'])`. -/
def overlapsWith (current_line row : Row) : Bool :=
  !(decide (current_line.stop ≤ row.start) || decide (current_line.start ≥ row.stop))

/-- The `overlaps` list built by the loop in `_calculate_vertical_offset`:
for every row `i ≠ current_idx` of the panel, if it horizontally overlaps
the current row and the level difference is `< 0.5`, append its current
`level_offset` (read from `offsets`, defaulting to 0). -/
def collectOverlaps (rows : List Row) (offsets : List ℚ) (current_idx : ℕ) : List ℚ :=
  (List.range rows.length).filterMap fun i =>
    if i = current_idx then none
    else
      let current_line := rows.getD current_idx default
      let row := rows.getD i default
      if overlapsWith current_line row ∧ ratAbs (current_line.level - row.level) < 1/2 then
        some (offsets.getD i 0)
      else none

/-- `_calculate_vertical_offset(chart_data, current_idx)`: if the collected
offset list is nonempty, return its max plus `0.3` (level `>= 0`) or minus
`0.3` (level `< 0`); otherwise `0`. -/
def calculateVerticalOffset (rows : List Row) (offsets : List ℚ) (current_idx : ℕ) : ℚ :=
  match collectOverlaps rows offsets current_idx with
  | [] => 0
  | o :: os =>
    let max_offset := os.foldl ratMax o
    if (rows.getD current_idx default).level ≥ 0 then max_offset + 3/10
    else max_offset - 3/10

/-- One step of the offset loop in `plot`:
`chart_data.at[i, 'level_offset'] = self._calculate_vertical_offset(chart_data, i)`. -/
def offsetStep (rows : List Row) (offsets : List ℚ) (i : ℕ) : List ℚ :=
  offsets.set i (calculateVerticalOffset rows offsets i)

/-- State of the `level_offset` column after the first `k` iterations of the
loop in `plot`, starting from the all-zero initialisation
(`chart_data['level_offset'] = 0.0`). -/
def offsetsAfter (rows : List Row) (k : ℕ) : List ℚ :=
  (List.range k).foldl (offsetStep rows) (List.replicate rows.length 0)

/-- The final `level_offset` column computed by the loop
`for i in range(len(chart_data)): ...` in `plot`, for one panel whose rows
are already sorted by ascending `start`. -/
def computeOffsets (rows : List Row) : List ℚ :=
  offsetsAfter rows rows.length

/-! Spec-side rendering of §4.2 of the specification, used to compare the
code's offset computation against the spec's wording: collect the current
`level_offset` of every other entry `j` that horizontally overlaps `i` with
`abs(level_i - level_j) < 0.5`; empty collection gives `0`, otherwise
`max + 0.3` for `level_i >= 0` and `max - 0.3` for `level_i < 0`. -/

/-- Spec §4.2 step 1–2: the offsets collected for entry `i`, reading each
other entry's current offset from `offsets`. -/
def specCollect (rows : List Row) (offsets : List ℚ) (i : ℕ) : List ℚ :=
  ((List.range rows.length).filter fun j =>
      decide (j ≠ i) && overlapsWith (rows.getD i default) (rows.getD j default) &&
        decide (ratAbs ((rows.getD i default).level - (rows.getD j default).level) < 1/2)).map
    fun j => offsets.getD j 0

/-- Spec §4.2 step 3–4: `0` on an empty collection, otherwise
`max + 0.3` (`level_i >= 0`) or `max - 0.3` (`level_i < 0`). -/
def specOffset (rows : List Row) (offsets : List ℚ) (i : ℕ) : ℚ :=
  match maxQ? (specCollect rows offsets i) with
  | none => 0
  | some m =>
    if (rows.getD i default).level ≥ 0 then m + 3/10 else m - 3/10

/-- The offset state the loop exposes while processing entry `i`: entries
before `i` hold their final offsets, entries from `i` on still hold the
initial `0`. -/
def staleState (rows : List Row) (i : ℕ) : List ℚ :=
  (List.range rows.length).map fun j =>
    if j < i then (computeOffsets rows).getD j 0 else 0

/-! Color assignment (`_get_color`). -/

/-- `list(mcolors.TABLEAU_COLORS.values())`: the fixed ten-color palette. -/
def color_palette : List String :=
  ["#1f77b4", "#ff7f0e", "#2ca02c", "#d62728", "#9467bd",
   "#8c564b", "#e377c2", "#7f7f7f", "#bcbd22", "#17becf"]

/-- `_get_color(legend)`.  The `color_map` dict (insertion-ordered in
Python) is modelled as an insertion-ordered association list.  An unseen
legend is appended with color
`color_palette[len(color_map) % len(color_palette)]`; a seen legend gets
its stored color.  Returns the color and the updated map. -/
def get_color (color_map : List (String × String)) (legend : String) :
    String × List (String × String) :=
  match color_map.lookup legend with
  | some c => (c, color_map)
  | none =>
    let c := color_palette.getD (color_map.length % color_palette.length) ""
    (c, color_map ++ [(legend, c)])

/-- Thread `_get_color` over a sequence of calls, collecting the returned
colors in order. -/
def runColors (color_map : List (String × String)) : List String → List String
  | [] => []
  | l :: ls =>
    (get_color color_map l).1 :: runColors (get_color color_map l).2 ls

/-- First-seen-order deduplication, continuing from an accumulator.
With accumulator `[]` this is both the insertion order of Python dict
keys and the order of `pandas.Series.unique`. -/
def distinctSeenFrom (acc : List String) (ls : List String) : List String :=
  ls.foldl (fun acc l => if l ∈ acc then acc else acc ++ [l]) acc

/-- The distinct labels of `ls` in order of first occurrence. -/
def distinctSeen (ls : List String) : List String :=
  distinctSeenFrom [] ls

/-- The association list `_get_color` builds after the distinct legends
`ls` were inserted starting from palette slot `i`: label `ls[j]` is bound
to `color_palette[(i + j) % len]`. -/
def mkMapFrom : ℕ → List String → List (String × String)
  | _, [] => []
  | i, l :: ls =>
    (l, color_palette.getD (i % color_palette.length) "") :: mkMapFrom (i + 1) ls

/-! The `plot` method: validation, exclusion filtering, panel
partitioning, per-panel offsets and vertical limits, axis ranges and
configuration resolution. -/

/-- Constructor (`__init__`) configuration.  `chart_title` models the
source attribute `chart_title_prefix` (that exact name is not usable
here). -/
structure Config where
  figsize : ℚ × ℚ := (12, 10)
  line_width : ℚ := 3
  chart_title : String := ""
  x_axis_title : String := "Frequency"
  y_axis_title : String := "Level"
  x_axis_range : Option (ℚ × ℚ) := none
deriving Repr, DecidableEq, Inhabited

/-- Per-call keyword arguments of `plot` (each defaulting to `None`).
`plot` accepts overrides only for these four parameters; `figsize` and
`line_width` have no per-call counterpart.  `chart_title` models the
parameter `chart_title_prefix`. -/
structure PlotArgs where
  chart_title : Option String := none
  x_axis_title : Option String := none
  y_axis_title : Option String := none
  x_axis_range : Option (ℚ × ℚ) := none
deriving Repr, DecidableEq, Inhabited

/-- Python `arg or default` for the string parameters of `plot`:
`None` and the empty string are falsy and fall back to the default. -/
def orElseStr (arg : Option String) (dflt : String) : String :=
  match arg with
  | none => dflt
  | some s => if s = "" then dflt else s

/-- Python `arg or default` for `x_axis_range`: `None` is falsy, while a
pair `(min, max)` is always truthy. -/
def orElseRange (arg dflt : Option (ℚ × ℚ)) : Option (ℚ × ℚ) :=
  match arg with
  | none => dflt
  | some r => some r

/-- The input DataFrame: declared column names plus typed row data.  When
a column of `required_columns` (or `exclude`) is absent from `columns`,
the corresponding `Row` fields are ignored by `plot`. -/
structure DataFrame where
  columns : List String
  rows : List Row
deriving Repr, DecidableEq, Inhabited

/-- `required_columns = ['chart', 'legend', 'start', 'stop', 'level']`. -/
def required_columns : List String :=
  ["chart", "legend", "start", "stop", "level"]

/-- The error raised by `plot`:
`ValueError(f"DataFrame missing required columns: {missing_columns}")`. -/
inductive PlotError where
  | missingColumns (missing : List String)
deriving Repr, DecidableEq

/-- `df[~df['exclude']]` when the `exclude` column is present, else `df`
unchanged. -/
def filterExcluded (df : DataFrame) : List Row :=
  if "exclude" ∈ df.columns then df.rows.filter (fun r => !r.exclude) else df.rows

/-- `series.min()` over a nonempty column (junk value `0` on empty). -/
def listMin : List ℚ → ℚ
  | [] => 0
  | x :: xs => xs.foldl ratMin x

/-- `series.max()` over a nonempty column (junk value `0` on empty). -/
def listMax : List ℚ → ℚ
  | [] => 0
  | x :: xs => xs.foldl ratMax x

/-- The per-panel vertical limits from `plot`:
`y_min = all_levels.min() - 0.5`, `y_max = all_levels.max() + 0.5`, and
`if y_min < 0 and y_max > 0: y_min = min(y_min, -0.5); y_max = max(y_max, 0.5)`. -/
def yLimits (all_levels : List ℚ) : ℚ × ℚ :=
  let y_min := listMin all_levels - 1/2
  let y_max := listMax all_levels + 1/2
  if y_min < 0 ∧ y_max > 0 then (ratMin y_min (-(1/2)), ratMax y_max (1/2))
  else (y_min, y_max)

/-- The vertical-limit rule as the specification words it: pad by `0.5`
on each side, and expand to include `[-0.5, 0.5]` exactly when the
unexpanded range `[min(level+offset), max(level+offset)]` straddles
zero. -/
def yLimitsClaimed (all_levels : List ℚ) : ℚ × ℚ :=
  let lo := listMin all_levels
  let hi := listMax all_levels
  if lo < 0 ∧ hi > 0 then (ratMin (lo - 1/2) (-(1/2)), ratMax (hi + 1/2) (1/2))
  else (lo - 1/2, hi + 1/2)

/-- One rendered subplot: the panel's rows sorted by `start`, their
computed `level_offset` column, and the `set_ylim` bounds. -/
structure PanelOut where
  chart : String
  rows : List Row
  offsets : List ℚ
  yLim : ℚ × ℚ
deriving Repr, DecidableEq

/-- The per-panel work of `plot` for chart value `c`:
`chart_data = df[df['chart'] == c].sort_values('start')`, the offset loop,
and the vertical limits over `level + level_offset`. -/
def panelFor (rows : List Row) (c : String) : PanelOut :=
  let chart_data :=
    List.insertionSort (fun a b => a.start ≤ b.start) (rows.filter fun r => r.chart = c)
  let offsets := computeOffsets chart_data
  let all_levels := List.zipWith (fun (r : Row) o => r.level + o) chart_data offsets
  { chart := c, rows := chart_data, offsets := offsets, yLim := yLimits all_levels }

/-- The figure returned by `plot`: the configuration values actually
used, the shared horizontal range, the panels in first-appearance order
of their chart values, and the line colors in drawing order.
`chart_title` records the title text prepended to every panel title
(source: `chart_title_prefix`). -/
structure Figure where
  figsize : ℚ × ℚ
  line_width : ℚ
  chart_title : String
  x_axis_title : String
  y_axis_title : String
  x_range : ℚ × ℚ
  panels : List PanelOut
  colors : List String
deriving Repr, DecidableEq

/-- `LevelPlot.plot(df, ...)`.  Resolves each per-call argument against
the constructor value with Python `or`, validates the required columns
(raising before any other computation), filters excluded rows, computes
the shared horizontal range (auto range over all remaining rows when no
explicit range is given), and renders one panel per distinct chart value
in first-appearance order, resolving colors row by row via `_get_color`
(modelled by `runColors` over the drawing order). -/
def plot (cfg : Config) (color_map : List (String × String)) (df : DataFrame)
    (args : PlotArgs) : Except PlotError Figure :=
  let chart_title := orElseStr args.chart_title cfg.chart_title
  let x_axis_title := orElseStr args.x_axis_title cfg.x_axis_title
  let y_axis_title := orElseStr args.y_axis_title cfg.y_axis_title
  let x_axis_range := orElseRange args.x_axis_range cfg.x_axis_range
  let missing_columns := required_columns.filter fun c => c ∉ df.columns
  if missing_columns ≠ [] then
    .error (.missingColumns missing_columns)
  else
    let rows := filterExcluded df
    let x_rng := match x_axis_range with
      | some r => r
      | none => (listMin (rows.map (·.start)) - 1, listMax (rows.map (·.stop)) + 1)
    let unique_charts := distinctSeen (rows.map (·.chart))
    let panels := unique_charts.map (panelFor rows)
    let colors := runColors color_map (panels.flatMap fun p => p.rows.map (·.legend))
    .ok { figsize := cfg.figsize, line_width := cfg.line_width,
          chart_title := chart_title, x_axis_title := x_axis_title,
          y_axis_title := y_axis_title, x_range := x_rng,
          panels := panels, colors := colors }

/-! Concrete inputs used by witnesses and counterexamples. -/

/-- Row constructor for single-panel examples. -/
def mkRow (legend : String) (s t l : ℚ) : Row :=
  { chart := "Chart1", legend := legend, start := s, stop := t, level := l }

/-- The three mutually overlapping same-level entries of the spec's
offset-assignment scenario. -/
def exThree : List Row :=
  [mkRow "A" 1 5 2, mkRow "B" 2 4 2, mkRow "C" 3 6 2]

/-- Two overlapping entries at level `-3.0`. -/
def exNeg : List Row :=
  [mkRow "D" 1 4 (-3), mkRow "E" 2 5 (-3)]

/-- A valid DataFrame whose included rows have `start` minimum `0.5` and
`stop` maximum `8.3`, plus an excluded row far outside that range. -/
def dfAuto : DataFrame :=
  { columns := ["chart", "legend", "start", "stop", "level", "exclude"],
    rows :=
      [{ chart := "P1", legend := "S1", start := 1/2, stop := 7/2, level := 2 },
       { chart := "P2", legend := "S2", start := 21/5, stop := 83/10, level := -3/2 },
       { chart := "P1", legend := "S3", start := -5, stop := 100, level := 1,
         exclude := true }] }

/-- A minimal valid single-row DataFrame. -/
def dfOne : DataFrame :=
  { columns := ["chart", "legend", "start", "stop", "level"],
    rows := [{ chart := "P1", legend := "S1", start := 1, stop := 2, level := 3 }] }

/-- Constructor configuration for the override witness
(`chart_title_prefix="X"` in the source's terms). -/
def cfgW : Config := { chart_title := "X" }

/-- Per-call arguments for the override witness. -/
def argsW : PlotArgs := { chart_title := some "Y", x_axis_range := some (0, 1) }

/-- The figure `plot cfgW [] dfOne argsW` produces. -/
def figW : Figure :=
  { figsize := (12, 10), line_width := 3, chart_title := "Y",
    x_axis_title := "Frequency", y_axis_title := "Level", x_range := (0, 1),
    panels := [{ chart := "P1", rows := dfOne.rows, offsets := [0],
                 yLim := (5/2, 7/2) }],
    colors := ["#1f77b4"] }

/-! ### The offset loop: invariants -/

theorem offsetsAfter_succ (rows : List Row) (k : ℕ) :
    offsetsAfter rows (k + 1) = offsetStep rows (offsetsAfter rows k) k := by
  simp [offsetsAfter, List.range_succ, List.foldl_append]

theorem length_offsetsAfter (rows : List Row) (k : ℕ) :
    (offsetsAfter rows k).length = rows.length := by
  induction k with
  | zero => simp [offsetsAfter]
  | succ k ih => rw [offsetsAfter_succ]; simpa [offsetStep] using ih

/-- Entries the loop has not reached yet still hold the initial `0`. -/
theorem offsetsAfter_getD_of_le (rows : List Row) {k j : ℕ} (h : k ≤ j) :
    (offsetsAfter rows k).getD j 0 = 0 := by
  induction k with
  | zero =>
    rw [offsetsAfter]
    simp only [List.range_zero, List.foldl_nil, List.getD_eq_getElem?_getD,
      List.getElem?_replicate]
    split <;> rfl
  | succ k ih =>
    rw [offsetsAfter_succ, offsetStep, List.getD_eq_getElem?_getD,
      List.getElem?_set_ne (by omega), ← List.getD_eq_getElem?_getD]
    exact ih (by omega)

/-- Once the loop has passed slot `j`, the slot keeps its value. -/
theorem offsetsAfter_getD_stable (rows : List Row) {j k m : ℕ} (hj : j < k)
    (hk : k ≤ m) :
    (offsetsAfter rows m).getD j 0 = (offsetsAfter rows k).getD j 0 := by
  induction m with
  | zero => omega
  | succ m ih =>
    by_cases hkm : k = m + 1
    · rw [hkm]
    · have hm : m ≠ j := by omega
      rw [offsetsAfter_succ, offsetStep, List.getD_eq_getElem?_getD,
        List.getElem?_set_ne hm, ← List.getD_eq_getElem?_getD]
      exact ih (by omega)

/-- The final offset of entry `i` is `_calculate_vertical_offset` applied
to the offset state as it stood when the loop reached `i`. -/
theorem computeOffsets_getD_eq (rows : List Row) {i : ℕ} (hi : i < rows.length) :
    (computeOffsets rows).getD i 0 =
      calculateVerticalOffset rows (offsetsAfter rows i) i := by
  have h1 : (computeOffsets rows).getD i 0 = (offsetsAfter rows (i + 1)).getD i 0 :=
    offsetsAfter_getD_stable rows (Nat.lt_succ_self i) hi
  rw [h1, offsetsAfter_succ, offsetStep, List.getD_eq_getElem?_getD,
    List.getElem?_set_self (by rw [length_offsetsAfter]; exact hi)]
  rfl

theorem collectOverlaps_congr (rows : List Row) {off1 off2 : List ℚ} (i : ℕ)
    (h : ∀ j, off1.getD j 0 = off2.getD j 0) :
    collectOverlaps rows off1 i = collectOverlaps rows off2 i := by
  unfold collectOverlaps
  apply List.filterMap_congr
  intro j _
  have h' := h j
  rw [List.getD_eq_getElem?_getD, List.getD_eq_getElem?_getD] at h'
  by_cases h1 : j = i
  · simp [h1]
  · simp only [if_neg h1]
    split <;> simp [h']

theorem calculateVerticalOffset_congr (rows : List Row) {off1 off2 : List ℚ}
    (i : ℕ) (h : ∀ j, off1.getD j 0 = off2.getD j 0) :
    calculateVerticalOffset rows off1 i = calculateVerticalOffset rows off2 i := by
  unfold calculateVerticalOffset
  rw [collectOverlaps_congr rows i h]

theorem filterMap_guard {α β : Type} (p : α → Bool) (g : α → β) (l : List α) :
    (l.filterMap fun a => if p a then some (g a) else none) = (l.filter p).map g := by
  induction l with
  | nil => rfl
  | cons a l ih => by_cases h : p a <;> simp [List.filterMap_cons, List.filter_cons, h, ih]

/-- The `overlaps` list of the code is the collection the spec describes. -/
theorem collectOverlaps_eq_specCollect (rows : List Row) (offsets : List ℚ)
    (i : ℕ) :
    collectOverlaps rows offsets i = specCollect rows offsets i := by
  unfold collectOverlaps specCollect
  rw [← filterMap_guard]
  apply List.filterMap_congr
  intro j _
  by_cases h1 : j = i
  · simp [h1]
  · simp only [if_neg h1, Bool.and_eq_true, decide_eq_true_eq, ne_eq]
    split_ifs <;> first | rfl | tauto

/-- `_calculate_vertical_offset` computes exactly the spec's step 3–4
formula. -/
theorem calculateVerticalOffset_eq_specOffset (rows : List Row)
    (offsets : List ℚ) (i : ℕ) :
    calculateVerticalOffset rows offsets i = specOffset rows offsets i := by
  unfold calculateVerticalOffset specOffset
  rw [collectOverlaps_eq_specCollect]
  cases specCollect rows offsets i with
  | nil => rfl
  | cons o os => rfl

/-- The state read while processing entry `i`: final offsets before `i`,
zeros from `i` on. -/
theorem offsetsAfter_getD_eq_staleState (rows : List Row) {i : ℕ}
    (hi : i ≤ rows.length) (j : ℕ) :
    (offsetsAfter rows i).getD j 0 = (staleState rows i).getD j 0 := by
  by_cases hj : j < rows.length
  · have hs : (staleState rows i).getD j 0 =
        if j < i then (computeOffsets rows).getD j 0 else 0 := by
      rw [staleState, List.getD_eq_getElem?_getD, List.getElem?_map,
        List.getElem?_range hj]
      rfl
    rw [hs]
    by_cases hji : j < i
    · rw [if_pos hji]
      exact (offsetsAfter_getD_stable rows hji hi).symm
    · rw [if_neg hji]
      exact offsetsAfter_getD_of_le rows (by omega)
  · have h1 : (offsetsAfter rows i).getD j 0 = 0 := by
      rw [List.getD_eq_getElem?_getD, List.getElem?_eq_none]
      · rfl
      · rw [length_offsetsAfter]; omega
    have h2 : (staleState rows i).getD j 0 = 0 := by
      rw [staleState, List.getD_eq_getElem?_getD, List.getElem?_eq_none]
      · rfl
      · simp; omega
    rw [h1, h2]

theorem foldl_max_zeros (os : List ℚ) (o : ℚ) (ho : o = 0)
    (h : ∀ x ∈ os, x = 0) : os.foldl ratMax o = 0 := by
  induction os generalizing o with
  | nil => simpa using ho
  | cons a os ih =>
    have ha := h a (by simp)
    exact ih (ratMax o a) (by simp [ratMax, ho, ha]) fun x hx => h x (by simp [hx])

/-- While the loop is at entry `0`, every collected offset is the initial
zero. -/
theorem specCollect_staleState_zero_mem (rows : List Row) (x : ℚ)
    (hx : x ∈ specCollect rows (staleState rows 0) 0) : x = 0 := by
  unfold specCollect at hx
  rw [List.mem_map] at hx
  obtain ⟨j, hj, rfl⟩ := hx
  rw [← offsetsAfter_getD_eq_staleState rows (Nat.zero_le _) j]
  exact offsetsAfter_getD_of_le rows (Nat.zero_le j)

/-- The collection for entry `i` is nonempty exactly when some other
entry horizontally overlaps it within level distance `0.5`. -/
theorem specCollect_ne_nil_iff (rows : List Row) (off : List ℚ) (i : ℕ) :
    specCollect rows off i ≠ [] ↔
      ∃ j, j < rows.length ∧ j ≠ i ∧
        overlapsWith (rows.getD i default) (rows.getD j default) = true ∧
        ratAbs ((rows.getD i default).level - (rows.getD j default).level) < 1/2 := by
  unfold specCollect
  constructor
  · intro h
    have h2 : ¬((List.range rows.length).filter fun j =>
        decide (j ≠ i) && overlapsWith (rows.getD i default) (rows.getD j default) &&
          decide (ratAbs ((rows.getD i default).level - (rows.getD j default).level) < 1/2)) = [] := by
      intro hnil
      rw [hnil] at h
      exact h rfl
    obtain ⟨j, hj⟩ := List.exists_mem_of_ne_nil _ h2
    rw [List.mem_filter, List.mem_range] at hj
    obtain ⟨hjr, hp⟩ := hj
    simp only [Bool.and_eq_true, decide_eq_true_eq] at hp
    exact ⟨j, hjr, hp.1.1, hp.1.2, hp.2⟩
  · rintro ⟨j, hjlen, hji, hov, hlt⟩
    apply List.ne_nil_of_mem (a := off.getD j 0)
    refine List.mem_map_of_mem _ (List.mem_filter.mpr
      ⟨List.mem_range.mpr hjlen, ?_⟩)
    simp only [Bool.and_eq_true, decide_eq_true_eq]
    exact ⟨⟨hji, hov⟩, hlt⟩

/-! ### Claim theorems about the offset engine -/

/-- **C1**: for every panel processed in ascending-start order with all
offsets initialized to 0, the offset of entry `i` is the spec formula
applied to the current offset state — scan every other entry `j`
(final offsets for `j < i`, still-zero offsets for `j > i`), collect the
offsets of those that horizontally overlap `i` with
`abs(level_i - level_j) < 0.5`; an empty collection gives 0, otherwise
`max + 0.3` when `level_i ≥ 0` and `max - 0.3` when `level_i < 0`. -/
theorem offset_loop_reads_current_state (rows : List Row) (i : ℕ)
    (hi : i < rows.length) :
    (computeOffsets rows).getD i 0 = specOffset rows (staleState rows i) i := by
  rw [computeOffsets_getD_eq rows hi,
    calculateVerticalOffset_congr rows i
      (offsetsAfter_getD_eq_staleState rows (le_of_lt hi)),
    calculateVerticalOffset_eq_specOffset]

/-- Witness for C1 at the three-entry panel, entry `1`. -/
theorem offset_loop_reads_current_state_witness :
    (computeOffsets exThree).getD 1 0 = specOffset exThree (staleState exThree 1) 1 :=
  offset_loop_reads_current_state exThree 1 (by with_unfolding_all decide)

/-- **C2** fails on the code: the scan of entry `0` already sees its
still-zero overlapping neighbors, so the first entry is displaced to
`0.3`; the computed offsets are not `0, 0.3, 0.6`. -/
theorem three_overlapping_offsets_counterexample :
    computeOffsets exThree ≠ [0, 3/10, 3/5] := by with_unfolding_all decide

/-- **C2** (amended): for the panel
`[(A,1,5,2.0), (B,2,4,2.0), (C,3,6,2.0)]` the computed offsets are
exactly `0.3, 0.6, 0.9` in scan order. -/
theorem three_overlapping_offsets :
    computeOffsets exThree = [3/10, 3/5, 9/10] := by with_unfolding_all decide

/-- **C4**: two entries horizontally overlap iff
`NOT (stop_a <= start_b OR start_a >= stop_b)`; touching endpoints do
not overlap, while `(1,4)` and `(3,6)` do. -/
theorem overlap_boundary_check :
    (∀ a b : Row, overlapsWith a b = true ↔ ¬(a.stop ≤ b.start ∨ a.start ≥ b.stop)) ∧
    overlapsWith (mkRow "A" 1 4 2) (mkRow "B" 4 6 2) = false ∧
    overlapsWith (mkRow "A" 1 4 2) (mkRow "B" 3 6 2) = true := by
  refine ⟨fun a b => ?_, by with_unfolding_all decide, by with_unfolding_all decide⟩
  simp [overlapsWith, not_or]

/-- **C5** fails on the code: in the minimal two-entry panel at level
`-3.0` the second entry overlaps the previously processed first entry
(whose own offset is already `-0.3`) and receives `-0.6`, not `-0.3`. -/
theorem negative_level_counterexample :
    overlapsWith (exNeg.getD 1 default) (exNeg.getD 0 default) = true ∧
    (exNeg.getD 0 default).level = -3 ∧ (exNeg.getD 1 default).level = -3 ∧
    computeOffsets exNeg = [-(3/10), -(3/5)] ∧
    (computeOffsets exNeg).getD 1 0 ≠ -(3/10) := by with_unfolding_all decide

/-- **C5** (amended): a negative-level entry whose overlap collection is
nonempty receives `max(collected) - 0.3` — displaced downward by `0.3`
relative to the collected offsets, never `+0.3`; it is `-0.3` exactly
when the collected maximum is `0`. -/
theorem negative_level_displaced_downward (rows : List Row) (i : ℕ)
    (hi : i < rows.length) (hneg : (rows.getD i default).level < 0) (m : ℚ)
    (hm : maxQ? (specCollect rows (staleState rows i) i) = some m) :
    (computeOffsets rows).getD i 0 = m - 3/10 := by
  rw [computeOffsets_getD_eq rows hi,
    calculateVerticalOffset_congr rows i
      (offsetsAfter_getD_eq_staleState rows (le_of_lt hi)),
    calculateVerticalOffset_eq_specOffset]
  unfold specOffset
  rw [hm]
  exact if_neg (not_le.mpr hneg)

/-- Witness for the amended C5 at the two-entry panel, entry `1`. -/
theorem negative_level_displaced_downward_witness :
    (computeOffsets exNeg).getD 1 0 = -(3/10) - 3/10 :=
  negative_level_displaced_downward exNeg 1 (by with_unfolding_all decide) (by with_unfolding_all decide) (-(3/10))
    (by with_unfolding_all decide)

/-- **C10**: the first entry in scan order is displaced (`+0.3` for
nonnegative level, `-0.3` for negative level) precisely when it has a
horizontally overlapping neighbor within level distance `0.5` somewhere
in the panel; a zero offset for it means no such neighbor exists. -/
theorem first_entry_offset (rows : List Row) (h0 : 0 < rows.length) :
    ((∃ j, j < rows.length ∧ j ≠ 0 ∧
        overlapsWith (rows.getD 0 default) (rows.getD j default) = true ∧
        ratAbs ((rows.getD 0 default).level - (rows.getD j default).level) < 1/2) →
      (computeOffsets rows).getD 0 0 =
        (if (rows.getD 0 default).level ≥ 0 then 3/10 else -(3/10)) ∧
      (computeOffsets rows).getD 0 0 ≠ 0) ∧
    ((computeOffsets rows).getD 0 0 = 0 →
      ¬∃ j, j < rows.length ∧ j ≠ 0 ∧
        overlapsWith (rows.getD 0 default) (rows.getD j default) = true ∧
        ratAbs ((rows.getD 0 default).level - (rows.getD j default).level) < 1/2) := by
  have key : (computeOffsets rows).getD 0 0 = specOffset rows (staleState rows 0) 0 := by
    rw [computeOffsets_getD_eq rows h0,
      calculateVerticalOffset_congr rows 0
        (offsetsAfter_getD_eq_staleState rows (Nat.zero_le _)),
      calculateVerticalOffset_eq_specOffset]
  have hmax : specCollect rows (staleState rows 0) 0 ≠ [] →
      maxQ? (specCollect rows (staleState rows 0) 0) = some 0 := by
    intro hne
    cases hcoll : specCollect rows (staleState rows 0) 0 with
    | nil => exact absurd hcoll hne
    | cons o os =>
      have ho : o = 0 := specCollect_staleState_zero_mem rows o (by rw [hcoll]; simp)
      have hos : ∀ x ∈ os, x = 0 := fun x hx =>
        specCollect_staleState_zero_mem rows x (by rw [hcoll]; simp [hx])
      have hdef : maxQ? (o :: os) = some (os.foldl ratMax o) := rfl
      rw [hdef, foldl_max_zeros os o ho hos]
  constructor
  · rintro ⟨j, hj⟩
    have hne : specCollect rows (staleState rows 0) 0 ≠ [] :=
      (specCollect_ne_nil_iff rows _ 0).mpr ⟨j, hj⟩
    have h1 : (computeOffsets rows).getD 0 0 =
        if (rows.getD 0 default).level ≥ 0 then 3/10 else -(3/10) := by
      rw [key]
      unfold specOffset
      rw [hmax hne]
      split_ifs <;> norm_num
    refine ⟨h1, ?_⟩
    rw [h1]
    split_ifs <;> norm_num
  · intro hz
    rw [← specCollect_ne_nil_iff rows (staleState rows 0) 0]
    intro hne
    rw [key] at hz
    unfold specOffset at hz
    rw [hmax hne] at hz
    split_ifs at hz <;> norm_num at hz

/-- Witness for C10 at the three-entry panel. -/
theorem first_entry_offset_witness :
    (computeOffsets exThree).getD 0 0 =
      (if (exThree.getD 0 default).level ≥ 0 then 3/10 else -(3/10)) ∧
    (computeOffsets exThree).getD 0 0 ≠ 0 :=
  (first_entry_offset exThree (by with_unfolding_all decide)).1
    ⟨1, by with_unfolding_all decide, by with_unfolding_all decide, by with_unfolding_all decide, by with_unfolding_all decide⟩

/-! ### Color assignment lemmas -/

theorem length_mkMapFrom (i : ℕ) (ls : List String) :
    (mkMapFrom i ls).length = ls.length := by
  induction ls generalizing i with
  | nil => rfl
  | cons l ls ih => simp [mkMapFrom, ih]

theorem mkMapFrom_append (i : ℕ) (xs ys : List String) :
    mkMapFrom i (xs ++ ys) = mkMapFrom i xs ++ mkMapFrom (i + xs.length) ys := by
  induction xs generalizing i with
  | nil => simp [mkMapFrom]
  | cons x xs ih =>
    simp only [List.cons_append, mkMapFrom, List.length_cons, List.append_eq]
    rw [ih (i + 1)]
    have h : i + 1 + xs.length = i + (xs.length + 1) := by omega
    rw [h]

theorem lookup_mkMapFrom (i : ℕ) (ls : List String) (l : String) :
    (mkMapFrom i ls).lookup l =
      if l ∈ ls then
        some (color_palette.getD ((i + ls.indexOf l) % color_palette.length) "")
      else none := by
  induction ls generalizing i with
  | nil => simp [mkMapFrom]
  | cons a ls ih =>
    by_cases hla : l = a
    · subst hla
      simp [mkMapFrom, List.lookup, List.indexOf_cons_self]
    · have hne : (l == a) = false := beq_false_of_ne hla
      simp only [mkMapFrom, List.lookup, hne, ih (i + 1), List.mem_cons,
        List.indexOf_cons_ne _ (Ne.symm hla), Nat.succ_eq_add_one]
      by_cases hmem : l ∈ ls
      · have h : i + 1 + ls.indexOf l = i + (ls.indexOf l + 1) := by omega
        simp [hmem, hla, h]
      · simp [hmem, hla]

/-- `_get_color` on the map built from `labels`: a known label returns
the palette color of its first-seen index; an unknown label is appended
at slot `labels.length`. -/
theorem get_color_mkMapFrom (labels : List String) (l : String) :
    get_color (mkMapFrom 0 labels) l =
      if l ∈ labels then
        (color_palette.getD (labels.indexOf l % color_palette.length) "",
          mkMapFrom 0 labels)
      else
        (color_palette.getD (labels.length % color_palette.length) "",
          mkMapFrom 0 (labels ++ [l])) := by
  unfold get_color
  rw [lookup_mkMapFrom]
  by_cases h : l ∈ labels
  · simp [h]
  · simp only [h, if_false, if_neg h, length_mkMapFrom]
    rw [mkMapFrom_append]
    simp [mkMapFrom]

theorem distinctSeenFrom_cons (acc : List String) (l : String) (ls : List String) :
    distinctSeenFrom acc (l :: ls) =
      distinctSeenFrom (if l ∈ acc then acc else acc ++ [l]) ls := rfl

/-- `distinctSeenFrom` only appends to its accumulator. -/
theorem distinctSeenFrom_append_suffix (acc : List String) (ls : List String) :
    ∃ t, distinctSeenFrom acc ls = acc ++ t := by
  induction ls generalizing acc with
  | nil => exact ⟨[], by simp [distinctSeenFrom]⟩
  | cons l ls ih =>
    rw [distinctSeenFrom_cons]
    by_cases h : l ∈ acc
    · rw [if_pos h]; exact ih acc
    · rw [if_neg h]
      obtain ⟨t, ht⟩ := ih (acc ++ [l])
      exact ⟨[l] ++ t, by rw [ht, List.append_assoc]⟩

/-- A label already in the accumulator keeps its first-seen index. -/
theorem indexOf_distinctSeenFrom_of_mem (acc : List String) (ls : List String)
    (l : String) (h : l ∈ acc) :
    (distinctSeenFrom acc ls).indexOf l = acc.indexOf l := by
  obtain ⟨t, ht⟩ := distinctSeenFrom_append_suffix acc ls
  rw [ht, List.indexOf_append_of_mem h]

/-- Invariant run of `_get_color` over a call sequence: starting from the
map of previously seen `labels`, the `i`-th returned color is the palette
slot of the label's first-seen index in the combined first-seen order. -/
theorem runColors_getD (ls : List String) (labels : List String) (i : ℕ)
    (hi : i < ls.length) :
    (runColors (mkMapFrom 0 labels) ls).getD i "" =
      color_palette.getD
        ((distinctSeenFrom labels ls).indexOf (ls.getD i "") %
          color_palette.length) "" := by
  induction ls generalizing labels i with
  | nil => simp at hi
  | cons l ls ih =>
    simp only [runColors, distinctSeenFrom_cons]
    cases i with
    | zero =>
      simp only [List.getD_cons_zero]
      by_cases h : l ∈ labels
      · rw [if_pos h, get_color_mkMapFrom, if_pos h,
          indexOf_distinctSeenFrom_of_mem labels ls l h]
      · rw [if_neg h, get_color_mkMapFrom, if_neg h,
          indexOf_distinctSeenFrom_of_mem (labels ++ [l]) ls l (by simp),
          List.indexOf_append_of_not_mem h, List.indexOf_cons_self]
        simp
    | succ i =>
      have hi2 : i < ls.length := by simpa using hi
      simp only [List.getD_cons_succ]
      by_cases h : l ∈ labels
      · have hmap : (get_color (mkMapFrom 0 labels) l).2 = mkMapFrom 0 labels := by
          rw [get_color_mkMapFrom, if_pos h]
        rw [if_pos h, hmap]
        exact ih labels i hi2
      · have hmap : (get_color (mkMapFrom 0 labels) l).2 =
            mkMapFrom 0 (labels ++ [l]) := by
          rw [get_color_mkMapFrom, if_neg h]
        rw [if_neg h, hmap]
        exact ih (labels ++ [l]) i hi2

/-- **C3**: for every call sequence, the color returned for a label is
`color_palette[(first-seen index of the label) % palette_size]`; repeated
calls with the same label return the same color; `[A, B, A, C]` yields
`[p0, p1, p0, p2]`; and the `(k+1)`-th distinct label receives `p0`
again. -/
theorem get_color_first_seen_assignment :
    (∀ ls : List String, ∀ i, i < ls.length →
      (runColors [] ls).getD i "" =
        color_palette.getD
          ((distinctSeen ls).indexOf (ls.getD i "") % color_palette.length) "") ∧
    (∀ ls : List String, ∀ i j, i < ls.length → j < ls.length →
      ls.getD i "" = ls.getD j "" →
      (runColors [] ls).getD i "" = (runColors [] ls).getD j "") ∧
    runColors [] ["A", "B", "A", "C"] =
      [color_palette.getD 0 "", color_palette.getD 1 "",
       color_palette.getD 0 "", color_palette.getD 2 ""] ∧
    (runColors [] ((List.range (color_palette.length + 1)).map toString)).getD
        color_palette.length "" = color_palette.getD 0 "" := by
  have main : ∀ ls : List String, ∀ i, i < ls.length →
      (runColors [] ls).getD i "" =
        color_palette.getD
          ((distinctSeen ls).indexOf (ls.getD i "") % color_palette.length) "" :=
    fun ls i hi => runColors_getD ls [] i hi
  refine ⟨main, ?_, ?_, ?_⟩
  · intro ls i j hi hj hij
    rw [main ls i hi, main ls j hj, hij]
  · rfl
  · rfl

/-! ### Claims about `plot`: validation, ranges, configuration -/

theorem ratMin_le_right (a b : ℚ) : ratMin a b ≤ b := by
  unfold ratMin
  split_ifs with h
  · exact h
  · exact le_refl b

theorem le_ratMax_right (a b : ℚ) : b ≤ ratMax a b := by
  unfold ratMax
  split_ifs with h
  · exact le_refl b
  · exact (not_le.mp h).le

/-- `plot` either fails naming exactly the missing required columns, or
succeeds. -/
theorem plot_validation_split (cfg : Config) (cm : List (String × String))
    (df : DataFrame) (args : PlotArgs) :
    (required_columns.filter (fun c => c ∉ df.columns) ≠ [] ∧
      plot cfg cm df args =
        .error (.missingColumns
          (required_columns.filter (fun c => c ∉ df.columns)))) ∨
    (required_columns.filter (fun c => c ∉ df.columns) = [] ∧
      ∃ fig, plot cfg cm df args = .ok fig) := by
  by_cases h : required_columns.filter (fun c => c ∉ df.columns) ≠ []
  · left
    refine ⟨h, ?_⟩
    simp only [plot]
    rw [if_pos h]
  · right
    exact ⟨not_not.mp h, _, by simp only [plot]; rw [if_neg h]⟩

/-- The configuration fields of a successfully produced figure. -/
theorem plot_ok_fields (cfg : Config) (cm : List (String × String))
    (df : DataFrame) (args : PlotArgs) (fig : Figure)
    (hok : plot cfg cm df args = .ok fig) :
    fig.figsize = cfg.figsize ∧ fig.line_width = cfg.line_width ∧
    fig.chart_title = orElseStr args.chart_title cfg.chart_title ∧
    fig.x_axis_title = orElseStr args.x_axis_title cfg.x_axis_title ∧
    fig.y_axis_title = orElseStr args.y_axis_title cfg.y_axis_title ∧
    fig.x_range = (match orElseRange args.x_axis_range cfg.x_axis_range with
      | some r => r
      | none => (listMin ((filterExcluded df).map (·.start)) - 1,
                 listMax ((filterExcluded df).map (·.stop)) + 1)) := by
  by_cases h : required_columns.filter (fun c => c ∉ df.columns) ≠ []
  · have herr : plot cfg cm df args =
        .error (.missingColumns (required_columns.filter (fun c => c ∉ df.columns))) := by
      simp only [plot]
      rw [if_pos h]
    rw [herr] at hok
    simp at hok
  · have hokr : plot cfg cm df args = .ok
        { figsize := cfg.figsize, line_width := cfg.line_width,
          chart_title := orElseStr args.chart_title cfg.chart_title,
          x_axis_title := orElseStr args.x_axis_title cfg.x_axis_title,
          y_axis_title := orElseStr args.y_axis_title cfg.y_axis_title,
          x_range := match orElseRange args.x_axis_range cfg.x_axis_range with
            | some r => r
            | none => (listMin ((filterExcluded df).map (·.start)) - 1,
                       listMax ((filterExcluded df).map (·.stop)) + 1),
          panels := (distinctSeen ((filterExcluded df).map (·.chart))).map
            (panelFor (filterExcluded df)),
          colors := runColors cm
            (((distinctSeen ((filterExcluded df).map (·.chart))).map
              (panelFor (filterExcluded df))).flatMap fun p => p.rows.map (·.legend)) } := by
      simp only [plot]
      rw [if_neg h]
    rw [hokr] at hok
    rw [Except.ok.injEq] at hok
    subst hok
    exact ⟨rfl, rfl, rfl, rfl, rfl, rfl⟩

/-- **C6**: `plot` raises exactly when a required column among
`chart, legend, start, stop, level` is absent; the error names exactly
the missing columns; it is raised before any row processing (the result
is independent of the rows); a table missing only `level` errors naming
`level` alone. -/
theorem plot_schema_validation :
    (∀ cfg cm df args, (∃ e, plot cfg cm df args = .error e) ↔
      required_columns.filter (fun c => c ∉ df.columns) ≠ []) ∧
    (∀ cfg cm df args e, plot cfg cm df args = .error e →
      e = .missingColumns (required_columns.filter (fun c => c ∉ df.columns))) ∧
    (∀ cfg cm cols rows1 rows2 args,
      required_columns.filter (fun c => c ∉ cols) ≠ [] →
      plot cfg cm ⟨cols, rows1⟩ args = plot cfg cm ⟨cols, rows2⟩ args) ∧
    (∀ cfg cm rows args,
      plot cfg cm ⟨["chart", "legend", "start", "stop"], rows⟩ args =
        .error (.missingColumns ["level"])) := by
  refine ⟨?_, ?_, ?_, fun cfg cm rows args => rfl⟩
  · intro cfg cm df args
    constructor
    · rintro ⟨e, he⟩
      rcases plot_validation_split cfg cm df args with ⟨h, _⟩ | ⟨_, fig, hok⟩
      · exact h
      · rw [hok] at he
        simp at he
    · intro hne
      rcases plot_validation_split cfg cm df args with ⟨_, herr⟩ | ⟨h, _⟩
      · exact ⟨_, herr⟩
      · exact absurd h hne
  · intro cfg cm df args e he
    rcases plot_validation_split cfg cm df args with ⟨_, herr⟩ | ⟨_, fig, hok⟩
    · rw [herr] at he
      simp only [Except.error.injEq] at he
      exact he.symm
    · rw [hok] at he
      simp at he
  · intro cfg cm cols rows1 rows2 args hne
    rcases plot_validation_split cfg cm ⟨cols, rows1⟩ args with ⟨_, he1⟩ | ⟨h, _⟩
    · rcases plot_validation_split cfg cm ⟨cols, rows2⟩ args with ⟨_, he2⟩ | ⟨h, _⟩
      · rw [he1, he2]
      · exact absurd h hne
    · exact absurd h hne

/-- Witness for C6: with column `chart` only, the outcome ignores the
rows entirely. -/
theorem plot_schema_validation_witness :
    plot {} [] ⟨["chart"], []⟩ {} = plot {} [] ⟨["chart"], dfOne.rows⟩ {} :=
  plot_schema_validation.2.2.1 {} [] ["chart"] [] dfOne.rows {}
    (by with_unfolding_all decide)

/-- **C7** fails on the code: the expansion test uses the padded bounds
(`min-0.5 < 0 and max+0.5 > 0`), not the unexpanded range; a panel whose
only `level+offset` value is `0.2` has an unexpanded range `[0.2, 0.2]`
that does not straddle zero, yet the code still expands, producing
`(-0.5, 0.7)` instead of the claimed `(-0.3, 0.7)`. -/
theorem y_range_straddle_counterexample :
    yLimits [1/5] = (-(1/2), 7/10) ∧ yLimitsClaimed [1/5] = (-(3/10), 7/10) ∧
    yLimits [1/5] ≠ yLimitsClaimed [1/5] := by with_unfolding_all decide

/-- **C7** (amended): the vertical range is `[min-0.5, max+0.5]`,
expanded to include at least `[-0.5, 0.5]` exactly when the padded range
straddles zero — that is, when `min(level+offset) < 0.5` and
`max(level+offset) > -0.5`; otherwise the padded range is used
unchanged. -/
theorem y_range_expansion (all_levels : List ℚ) :
    (listMin all_levels < 1/2 ∧ listMax all_levels > -(1/2) →
      yLimits all_levels =
        (ratMin (listMin all_levels - 1/2) (-(1/2)),
          ratMax (listMax all_levels + 1/2) (1/2)) ∧
      (yLimits all_levels).1 ≤ -(1/2) ∧ (1/2 : ℚ) ≤ (yLimits all_levels).2) ∧
    (¬(listMin all_levels < 1/2 ∧ listMax all_levels > -(1/2)) →
      yLimits all_levels = (listMin all_levels - 1/2, listMax all_levels + 1/2)) := by
  constructor
  · rintro ⟨h1, h2⟩
    have hc : listMin all_levels - 1/2 < 0 ∧ listMax all_levels + 1/2 > 0 :=
      ⟨by linarith, by linarith⟩
    have hy : yLimits all_levels =
        (ratMin (listMin all_levels - 1/2) (-(1/2)),
          ratMax (listMax all_levels + 1/2) (1/2)) := by
      simp only [yLimits]
      rw [if_pos hc]
    refine ⟨hy, ?_, ?_⟩
    · rw [hy]
      exact ratMin_le_right _ _
    · rw [hy]
      exact le_ratMax_right _ _
  · intro hn
    have hnc : ¬(listMin all_levels - 1/2 < 0 ∧ listMax all_levels + 1/2 > 0) := by
      rintro ⟨hh1, hh2⟩
      exact hn ⟨by linarith, by linarith⟩
    simp only [yLimits]
    rw [if_neg hnc]

/-- Witness for the amended C7 at the single value `0.2`. -/
theorem y_range_expansion_witness :
    yLimits [1/5] =
      (ratMin (listMin [1/5] - 1/2) (-(1/2)),
        ratMax (listMax [1/5] + 1/2) (1/2)) ∧
    (yLimits [1/5]).1 ≤ -(1/2) ∧ (1/2 : ℚ) ≤ (yLimits [1/5]).2 :=
  (y_range_expansion [1/5]).1 (by with_unfolding_all decide)

/-- **C8**: with no explicit `x_axis_range`, the horizontal range is
`(min(start) - 1, max(stop) + 1)` over the post-exclusion rows of all
panels combined; excluded rows are absent from every computed quantity
(`plot` is unchanged when they are dropped beforehand); concretely,
`start` minimum `0.5` and `stop` maximum `8.3` give `(-0.5, 9.3)`. -/
theorem plot_x_auto_range :
    (∀ cfg cm df args fig, args.x_axis_range = none → cfg.x_axis_range = none →
      plot cfg cm df args = .ok fig →
      fig.x_range = (listMin ((filterExcluded df).map (·.start)) - 1,
        listMax ((filterExcluded df).map (·.stop)) + 1)) ∧
    (∀ cfg cm df args, "exclude" ∈ df.columns →
      plot cfg cm df args =
        plot cfg cm ⟨df.columns, df.rows.filter (fun r => !r.exclude)⟩ args) ∧
    (plot {} [] dfAuto {}).toOption.map (·.x_range) = some (-(1/2), 93/10) := by
  refine ⟨?_, ?_, by with_unfolding_all decide⟩
  · intro cfg cm df args fig ha hc hok
    have h := (plot_ok_fields cfg cm df args fig hok).2.2.2.2.2
    rw [h, ha]
    simp only [orElseRange]
    rw [hc]
  · intro cfg cm df args hmem
    have hfe : filterExcluded df = df.rows.filter (fun r => !r.exclude) := by
      rw [filterExcluded, if_pos hmem]
    have hfe2 : filterExcluded ⟨df.columns, df.rows.filter (fun r => !r.exclude)⟩ =
        df.rows.filter (fun r => !r.exclude) := by
      rw [filterExcluded]
      rw [if_pos hmem, List.filter_filter]
      simp
    simp only [plot, hfe, hfe2]

/-- Witness for C8: dropping the excluded row of `dfAuto` beforehand
leaves the plot unchanged. -/
theorem plot_x_auto_range_witness :
    plot {} [] dfAuto {} =
      plot {} [] ⟨dfAuto.columns, dfAuto.rows.filter (fun r => !r.exclude)⟩ {} :=
  plot_x_auto_range.2.1 {} [] dfAuto {} (by with_unfolding_all decide)

/-- **C9** fails on the code: a per-call value that is falsy in Python is
ignored — passing `chart_title_prefix=""` to `plot` with a constructor
value `"X"` produces a figure using `"X"`, not `""` (and `figsize` /
`line_width` have no per-call override at all). -/
theorem config_override_counterexample :
    (plot { chart_title := "X" } [] dfOne { chart_title := some "" }).toOption.map
        (·.chart_title) = some "X" ∧ some ("X" : String) ≠ some "" := by
  exact ⟨rfl, by simp⟩

/-- **C9** (amended): the per-call values of `chart_title_prefix`,
`x_axis_title`, `y_axis_title` and `x_axis_range` are used whenever they
are truthy (non-`None`, and nonempty for strings), falling back to the
constructor values otherwise; `figsize` and `line_width` always come
from the constructor. -/
theorem config_override_semantics (cfg : Config) (cm : List (String × String))
    (df : DataFrame) (args : PlotArgs) (fig : Figure)
    (hok : plot cfg cm df args = .ok fig) :
    fig.figsize = cfg.figsize ∧
    fig.line_width = cfg.line_width ∧
    (∀ s, args.chart_title = some s → s ≠ "" → fig.chart_title = s) ∧
    (args.chart_title = none → fig.chart_title = cfg.chart_title) ∧
    (∀ s, args.x_axis_title = some s → s ≠ "" → fig.x_axis_title = s) ∧
    (∀ s, args.y_axis_title = some s → s ≠ "" → fig.y_axis_title = s) ∧
    (∀ r, args.x_axis_range = some r → fig.x_range = r) := by
  obtain ⟨h1, h2, h3, h4, h5, h6⟩ := plot_ok_fields cfg cm df args fig hok
  refine ⟨h1, h2, ?_, ?_, ?_, ?_, ?_⟩
  · intro s hs hne
    rw [h3, hs]
    simp only [orElseStr]
    rw [if_neg hne]
  · intro hs
    rw [h3, hs]
    rfl
  · intro s hs hne
    rw [h4, hs]
    simp only [orElseStr]
    rw [if_neg hne]
  · intro s hs hne
    rw [h5, hs]
    simp only [orElseStr]
    rw [if_neg hne]
  · intro r hr
    rw [h6, hr]
    rfl

/-- Witness for the amended C9: the truthy per-call title `"Y"` wins over
the constructor value `"X"`. -/
theorem config_override_semantics_witness : figW.chart_title = "Y" :=
  (config_override_semantics cfgW [] dfOne argsW figW
    (by with_unfolding_all rfl)).2.2.1 "Y" rfl (by simp)

/-- Witness-style instantiation for C3 at a single call. -/
theorem get_color_first_seen_assignment_witness :
    (runColors [] ["A"]).getD 0 "" =
      color_palette.getD
        ((distinctSeen ["A"]).indexOf (["A"].getD 0 "") % color_palette.length) "" :=
  get_color_first_seen_assignment.1 ["A"] 0 (by decide)

/-- Witness-style instantiation for C4 at a concrete pair. -/
theorem overlap_boundary_check_witness :
    overlapsWith (mkRow "A" 1 4 2) (mkRow "B" 3 6 2) = true ↔
      ¬((mkRow "A" 1 4 2).stop ≤ (mkRow "B" 3 6 2).start ∨
        (mkRow "A" 1 4 2).start ≥ (mkRow "B" 3 6 2).stop) :=
  overlap_boundary_check.1 (mkRow "A" 1 4 2) (mkRow "B" 3 6 2)

end LevelPlot
